import Mathlib

/-!
Verification of the m64prs synchronization core: the state-change waiter
multiplexer (`EmulatorWaitManager`), the command-with-wait orchestrator
(`Core::emu_state_command` and `EmulatorFuture`), the request/response
rendezvous (`RequestManager`), and the lifecycle coordinator's stop path
(`Model::stop_rom_inner`).  Definitions are shallow embeddings of the Rust
source in `m64prs-core/src/core/emu_state.rs`,
`m64prs-gtk/src/ui/core/vidext/request.rs` and
`m64prs-gtk-test/src/ui/core_worker/mod.rs`.
-/

namespace M64prs

/-- Modelled from the spec: `EmuState` lives in the external `m64prs-sys`
crate; the spec treats it as an opaque, equality-testable integer-like value.
The three values used by this core are `Stopped`, `Running` and `Paused`,
mapped to distinct integers. -/
inductive EmuState where
  | stopped
  | running
  | paused
deriving DecidableEq, Repr

/-- Modelled from the spec: the `u32::from(value) as i32` conversion of an
`EmuState` to its integer representation (distinct integers per state). -/
def EmuState.toInt : EmuState → Int
  | .stopped => 1
  | .running => 2
  | .paused => 3

/-- Modelled from the spec: `Command` lives in the external `m64prs-sys`
crate; this core treats it as an opaque command token handed to the
execution engine.  The constructors are the commands this core issues. -/
inductive Command where
  | stop
  | pause
  | resume
  | advanceFrame
  | nop
  | reset
  | coreStateSet (paramKind : Nat) (value : Int)
deriving DecidableEq, Repr

/-- Modelled from the spec: `M64PError` lives in `m64prs-core/src/error.rs`
(not part of the analysed sources); the spec treats it as an opaque error
kind returned when the engine rejects a command.  Two distinct
representative values suffice for the claims. -/
inductive M64PError where
  | engineBusy
  | internalErr
deriving DecidableEq, Repr

/-- State of a `futures::channel::oneshot` receiver as observed by a single
poll: the paired sender has not acted yet, has fired `()`, or was dropped
without firing. -/
inductive OneshotState where
  | pending
  | fired
  | dropped
deriving DecidableEq, Repr

/-- Result of polling a `oneshot::Receiver<()>`: `none` models
`Poll::Pending`; `some r` models `Poll::Ready(r)` where `r` is `Ok(())`
when the sender fired and `Err(Canceled)` when it was dropped. -/
def pollOneshot : OneshotState → Option (Except Unit Unit)
  | .pending => none
  | .fired => some (.ok ())
  | .dropped => some (.error ())

/-- `EmulatorWaiter` from `emu_state.rs`: a registered interest in a state
value.  `tx` is the identity of the moved-in oneshot sender. -/
structure EmulatorWaiter where
  value : Int
  tx : Nat
deriving DecidableEq, Repr

/-- `EmulatorFuture` from `emu_state.rs`: an optional pre-computed failure
plus the receiving half (identified by `rx`) of the waiter's oneshot pair. -/
structure EmulatorFuture where
  early_fail : Option M64PError
  rx : Nat
deriving DecidableEq, Repr

/-- Outcome of one poll of an `EmulatorFuture`. -/
inductive PollRes where
  | ready (r : Except M64PError Unit)
  | pending
deriving Repr

/-- `EmulatorFuture::poll`: first `early_fail.take()` — if a pre-computed
failure is present it is returned (and cleared) without consulting the
receiver; otherwise the oneshot receiver is polled and any ready result
(`Ok` or `Err(Canceled)`) is mapped to `Ok(())`. -/
def EmulatorFuture.poll (f : EmulatorFuture) (rxState : OneshotState) :
    PollRes × EmulatorFuture :=
  match f.early_fail with
  | some err => (.ready (.error err), { f with early_fail := none })
  | none =>
    match pollOneshot rxState with
    | some _ => (.ready (.ok ()), f)
    | none => (.pending, f)

/-- `EmulatorFuture::fail_early`: store a pre-computed failure. -/
def EmulatorFuture.fail_early (f : EmulatorFuture) (error : M64PError) :
    EmulatorFuture :=
  { f with early_fail := some error }

/-- `emu_pair` from `emu_state.rs`: create a oneshot channel (fresh id
`txId`) and wrap its halves into a future and a waiter for `value`. -/
def emu_pair (value : Int) (txId : Nat) : EmulatorFuture × EmulatorWaiter :=
  ({ early_fail := none, rx := txId }, { value := value, tx := txId })

/-- `Vec::swap_remove(i)`: remove the element at index `i` by overwriting
it with the last element and popping the last slot. -/
def swapRemove {α : Type} : List α → Nat → List α
  | [], _ => []
  | x :: xs, i => ((x :: xs).set i ((x :: xs).getLast (by simp))).dropLast

/-- The scan-and-trip loop inside
`EmulatorWaitManager::on_emu_state_changed`: walk the waiter list from
index `i`; a waiter whose target equals `value` is swap-removed and fired
(appended to `fired`), otherwise the index advances. Returns the final
waiter list and the fired waiters in firing order. -/
def tripWaiters (value : Int) (l : List EmulatorWaiter) (i : Nat)
    (fired : List EmulatorWaiter) : List EmulatorWaiter × List EmulatorWaiter :=
  if h : i < l.length then
    if (l.get ⟨i, h⟩).value = value then
      tripWaiters value (swapRemove l i) i (fired ++ [l.get ⟨i, h⟩])
    else
      tripWaiters value l (i + 1) fired
  else
    (l, fired)
termination_by l.length - i
decreasing_by
  all_goals simp_wf
  · have hlen : (swapRemove l i).length = l.length - 1 := by
      cases l with
      | nil => simp at h
      | cons x xs => simp [swapRemove]
    omega
  · omega

/-- `EmulatorWaitManager` from `emu_state.rs`: the receiving end of the
registration channel (`rx`, oldest registration first) and the internal
waiter list (`waiters`). -/
structure EmulatorWaitManager where
  rx : List EmulatorWaiter
  waiters : List EmulatorWaiter
deriving DecidableEq, Repr

/-- `EmulatorWaitManager::on_emu_state_changed`: first drain every pending
registration from the channel into the waiter list (each drained waiter is
pushed onto the end), then run the trip loop for `value`. Returns the
updated manager and the fired waiters. -/
def on_emu_state_changed (m : EmulatorWaitManager) (value : Int) :
    EmulatorWaitManager × List EmulatorWaiter :=
  let drained := m.waiters ++ m.rx
  let res := tripWaiters value drained 0 []
  ({ rx := [], waiters := res.1 }, res.2)

/-- Observable actions of `Core` relevant to ordering claims. -/
inductive EmuEvent where
  | registerWaiter (value : Int)
  | issueCommand (command : Command)
deriving DecidableEq, Repr

/-- State of a `Core` handle as seen by `emu_state_command`: whether the
multiplexer's registration channel is still open, the messages queued on
it, a fresh-id supply for oneshot pairs, the engine's response to each
command (`do_command`), and a trace of performed actions. -/
structure CoreState where
  emuSenderConnected : Bool
  emuQueue : List EmulatorWaiter
  nextTxId : Nat
  doCommandResult : Command → Except M64PError Unit
  trace : List EmuEvent

/-- `Core::do_command` as seen from this module: synchronously hands
`command` to the engine, which accepts or rejects it. -/
def CoreState.do_command (st : CoreState) (command : Command) :
    Except M64PError Unit × CoreState :=
  (st.doCommandResult command,
   { st with trace := st.trace ++ [.issueCommand command] })

/-- Result of a call to `Core::emu_state_command`: either a returned
future, or a panic (from the `.expect` on the registration send). -/
inductive CmdOutcome where
  | ok (future : EmulatorFuture)
  | panicked (msg : String)

/-- `Core::emu_state_command`: build a future/waiter pair for `value`, send
the waiter into the multiplexer's registration channel (panicking if that
channel is disconnected), then issue `command` to the engine; if issuing
fails, mark the future with the failure. -/
def emu_state_command (st : CoreState) (command : Command) (value : EmuState) :
    CmdOutcome × CoreState :=
  let (future, waiter) := emu_pair value.toInt st.nextTxId
  if st.emuSenderConnected then
    let st1 : CoreState :=
      { st with
        emuQueue := st.emuQueue ++ [waiter]
        nextTxId := st.nextTxId + 1
        trace := st.trace ++ [.registerWaiter waiter.value] }
    match st1.do_command command with
    | (.error error, st2) => (.ok (future.fail_early error), st2)
    | (.ok _, st2) => (.ok future, st2)
  else
    (.panicked "emu waiter queue disconnected", st)

/-- `Core::stop`: issue `Command::Stop` and wait for `EmuState::Stopped`. -/
def CoreState.stop (st : CoreState) : CmdOutcome × CoreState :=
  emu_state_command st .stop .stopped

/-- `Core::pause`: issue `Command::Pause` and wait for `EmuState::Paused`. -/
def CoreState.pause (st : CoreState) : CmdOutcome × CoreState :=
  emu_state_command st .pause .paused

/-- `Core::resume`: issue `Command::Resume` and wait for
`EmuState::Running`. -/
def CoreState.resume (st : CoreState) : CmdOutcome × CoreState :=
  emu_state_command st .resume .running

/-- `Core::advance_frame`: issue `Command::AdvanceFrame` and wait for
`EmuState::Paused`. -/
def CoreState.advance_frame (st : CoreState) : CmdOutcome × CoreState :=
  emu_state_command st .advanceFrame .paused

/-- `Core::await_emu_state`: issue `Command::Nop` and wait for `state`. -/
def CoreState.await_emu_state (st : CoreState) (state : EmuState) :
    CmdOutcome × CoreState :=
  emu_state_command st .nop state

/-! The request/response rendezvous from
`m64prs-gtk/src/ui/core/vidext/request.rs`. -/

/-- Modelled from the spec: `VidextRequest` lives elsewhere in the
`vidext` module; the rendezvous treats it as an opaque request payload. -/
abbrev VidextRequest : Type := Nat

/-- Modelled from the spec: `VidextResponse` is the opaque reply payload
matching a `VidextRequest`. -/
abbrev VidextResponse : Type := Nat

/-- `RequestManager` from `request.rs`: holds the atomic identifier
counter (the channel halves are modelled as per-call parameters). -/
structure RequestManager where
  uid_counter : Nat
deriving DecidableEq, Repr

/-- `RequestManager::new`: the counter starts at 0. -/
def RequestManager.new : RequestManager := { uid_counter := 0 }

/-- Result of a call to `RequestManager::request`: a normal reply, the
`Err(RecvError)` disconnection error from `inbound.recv()`, or a panic
(from the `.expect` on the outbound send or the reply-id assertion). -/
inductive ReqOutcome where
  | ok (resp : VidextResponse)
  | recvDisconnected
  | panicked (msg : String)
deriving DecidableEq, Repr

/-- `RequestManager::request`: fetch-and-increment the identifier counter,
send `(id, req)` on the outbound channel (panicking if it is closed), then
block on the inbound reply channel. A closed reply channel yields the
`RecvError` disconnection result; a received reply is asserted to echo the
request's identifier before its payload is returned. `outboundOpen` says
whether the remote handler's inbound (our outbound) channel is open;
`reply` is what `inbound.recv()` yields: `none` when that channel is
disconnected, `some (reply_id, resp)` for a received envelope. The result
also carries the envelope sent on the outbound channel, if any. -/
def RequestManager.request (rm : RequestManager) (outboundOpen : Bool)
    (reply : Option (Nat × VidextResponse)) (req : VidextRequest) :
    ReqOutcome × RequestManager × Option (Nat × VidextRequest) :=
  let id := rm.uid_counter
  let rm1 : RequestManager := { uid_counter := id + 1 }
  if outboundOpen then
    match reply with
    | none => (.recvDisconnected, rm1, some (id, req))
    | some (reply_id, resp) =>
      if reply_id = id then (.ok resp, rm1, some (id, req))
      else (.panicked "reply should correspond to request", rm1, some (id, req))
  else
    (.panicked "Sender should still be valid", rm1, none)

/-- Driver for sequential calls: each request in `reqs` is sent in turn on
an open channel, and the remote handler answers each envelope `(id, req)`
correctly with `(id, oracle id)`. Returns the list of
(assigned identifier, outcome) pairs. -/
def runRequests (rm : RequestManager) (oracle : Nat → VidextResponse) :
    List VidextRequest → List (Nat × ReqOutcome)
  | [] => []
  | req :: rest =>
    let id := rm.uid_counter
    let (out, rm1, _) := rm.request true (some (id, oracle id)) req
    (id, out) :: runRequests rm1 oracle rest

/-! The lifecycle coordinator's stop path,
`Model::stop_rom_inner` in `m64prs-gtk-test/src/ui/core_worker/mod.rs`. -/

/-- Steps performed by `stop_rom_inner`, in the order they appear. -/
inductive StopEvent where
  | issueStop
  | joinThread
  | reclaim
deriving DecidableEq, Repr

/-- Outcome of `stop_rom_inner`: the reclaimed core, or a panic from one
of its three `.expect` calls. -/
inductive StopOutcome where
  | ok
  | panicked (msg : String)
deriving DecidableEq, Repr

/-- `Arc::into_inner` on the shared core handle: yields the inner value
exactly when the caller holds the sole remaining reference
(`strongCount = 1`), and `None` while any other owner exists. -/
def arcIntoInner (strongCount : Nat) : Option Unit :=
  if strongCount = 1 then some () else none

/-- `Model::stop_rom_inner`: (a) block on `core_ref.stop()` and `.expect`
its result, (b) join the execution thread and `.expect` success, then
(c) reclaim the shared handle via `Arc::into_inner(core_ref)` and
`.expect` that no other reference remains. `stopResult` is the awaited
output of the stop future, `joinOk` whether the thread joined cleanly, and
`strongCount` the number of live owners of the shared handle at
reclamation time. The trace records the steps actually performed. -/
def stop_rom_inner (stopResult : Except M64PError Unit) (joinOk : Bool)
    (strongCount : Nat) : StopOutcome × List StopEvent :=
  match stopResult with
  | .error _ => (.panicked "the core should be running", [.issueStop])
  | .ok _ =>
    if joinOk then
      match arcIntoInner strongCount with
      | some _ => (.ok, [.issueStop, .joinThread, .reclaim])
      | none =>
        (.panicked "no refs to the core should exist outside of the emulator thread",
         [.issueStop, .joinThread, .reclaim])
    else (.panicked "the core thread shouldn't panic", [.issueStop, .joinThread])

/-! The `Core::notify_resize` bit packing. -/

/-- Modelled from the spec: the numeric value of `CoreParam::VideoSize`
from `m64prs-sys`; the packing claim treats it as an opaque tag. -/
def videoSizeParam : Nat := 3

/-- The packed size computed by `Core::notify_resize`:
`(((width as u32) << 16) | (height as u32))`, as a `u32` value. -/
def size_packed (width height : Nat) : Nat :=
  ((width <<< 16) ||| height) % 2 ^ 32

/-- `Core::notify_resize`: packs `width` and `height` into one 32-bit
value and issues `CoreStateSet(VideoSize, size_packed)` to the engine. -/
def notify_resize (st : CoreState) (width height : Nat) :
    Except M64PError Unit × CoreState :=
  st.do_command (.coreStateSet videoSizeParam (size_packed width height))

lemma swapRemove_eq {α : Type} (l : List α) (i : Nat) (hne : l ≠ []) :
    swapRemove l i = (l.set i (l.getLast hne)).dropLast := by
  cases l with
  | nil => exact absurd rfl hne
  | cons x xs => rfl

lemma swapRemove_length {α : Type} (l : List α) (i : Nat) (hne : l ≠ []) :
    (swapRemove l i).length = l.length - 1 := by
  rw [swapRemove_eq l i hne, List.length_dropLast, List.length_set]

lemma swapRemove_get {α : Type} (l : List α) (i j : Nat) (hne : l ≠ [])
    (hij : j ≠ i) (hj : j < l.length - 1)
    (hj1 : j < (swapRemove l i).length) (hj2 : j < l.length) :
    (swapRemove l i).get ⟨j, hj1⟩ = l.get ⟨j, hj2⟩ := by
  cases l with
  | nil => exact absurd rfl hne
  | cons x xs =>
    simp only [swapRemove, List.get_eq_getElem] at hj1 ⊢
    rw [List.getElem_dropLast, List.getElem_set_ne (fun h => hij h.symm)]

/-- `swap_remove` at a valid index removes exactly the element at that
index, up to reordering of the rest. -/
lemma swapRemove_perm {α : Type} (l : List α) (i : Nat) (hi : i < l.length) :
    (swapRemove l i).Perm (l.eraseIdx i) := by
  have hne : l ≠ [] := List.ne_nil_of_length_pos (by omega)
  rw [swapRemove_eq l i hne, List.set_eq_take_append_cons_drop, if_pos hi,
    List.eraseIdx_eq_take_drop_succ]
  rcases Nat.lt_or_ge i (l.length - 1) with hlt | hge
  · have hD : l.drop (i + 1) ≠ [] := by
      intro hnil
      have := congrArg List.length hnil
      rw [List.length_drop] at this
      simp at this
      omega
    rw [List.dropLast_append_of_ne_nil _ (by simp),
      List.dropLast_cons_of_ne_nil hD]
    have hlast : (l.drop (i + 1)).getLast hD = l.getLast hne := by
      rw [List.getLast_eq_getElem, List.getLast_eq_getElem, List.getElem_drop]
      congr 1
      rw [List.length_drop]
      omega
    have hsplit : l.drop (i + 1) = (l.drop (i + 1)).dropLast ++ [l.getLast hne] := by
      conv_lhs => rw [← List.dropLast_append_getLast hD]
      rw [hlast]
    have p1 : (l.take i ++ l.getLast hne :: (l.drop (i + 1)).dropLast).Perm
        (l.take i ++ ((l.drop (i + 1)).dropLast ++ [l.getLast hne])) :=
      List.Perm.append_left _ (List.perm_append_singleton _ _).symm
    rw [← hsplit] at p1
    exact p1
  · have hi1 : i = l.length - 1 := by omega
    have hD : l.drop (i + 1) = [] := List.drop_eq_nil_of_le (by omega)
    rw [hD, List.dropLast_concat, List.append_nil]

/-- `l` is, up to permutation, its `i`-th element together with the list
with index `i` erased. -/
lemma perm_get_cons_eraseIdx {α : Type} (l : List α) (i : Nat)
    (hi : i < l.length) :
    l.Perm (l.get ⟨i, hi⟩ :: l.eraseIdx i) := by
  conv_lhs => rw [← List.take_append_drop i l, List.drop_eq_getElem_cons hi]
  rw [List.eraseIdx_eq_take_drop_succ]
  simp only [List.get_eq_getElem]
  exact List.perm_middle

lemma tripWaiters_stop (value : Int) (l : List EmulatorWaiter) (i : Nat)
    (f : List EmulatorWaiter) (h : ¬ i < l.length) :
    tripWaiters value l i f = (l, f) := by
  rw [tripWaiters]
  simp [h]

lemma tripWaiters_match (value : Int) (l : List EmulatorWaiter) (i : Nat)
    (f : List EmulatorWaiter) (h : i < l.length)
    (hv : (l.get ⟨i, h⟩).value = value) :
    tripWaiters value l i f =
      tripWaiters value (swapRemove l i) i (f ++ [l.get ⟨i, h⟩]) := by
  simp only [List.get_eq_getElem] at hv
  rw [tripWaiters]
  simp [h, hv]

lemma tripWaiters_skip (value : Int) (l : List EmulatorWaiter) (i : Nat)
    (f : List EmulatorWaiter) (h : i < l.length)
    (hv : ¬ (l.get ⟨i, h⟩).value = value) :
    tripWaiters value l i f = tripWaiters value l (i + 1) f := by
  simp only [List.get_eq_getElem] at hv
  rw [tripWaiters]
  simp [h, hv]

lemma tripWaiters_at_end (value : Int) (l : List EmulatorWaiter) (i : Nat)
    (f : List EmulatorWaiter) (h : ¬ i < l.length)
    (hinv : ∀ (j : Nat) (hj : j < l.length), j < i →
      (l.get ⟨j, hj⟩).value ≠ value) :
    (tripWaiters value l i f).2.Perm
      (f ++ l.filter (fun w => w.value = value)) ∧
    (tripWaiters value l i f).1.Perm
      (l.filter (fun w => ¬ w.value = value)) := by
  rw [tripWaiters_stop value l i f h]
  have hall : ∀ w ∈ l, w.value ≠ value := by
    intro w hw
    obtain ⟨j, hj, he⟩ := List.mem_iff_getElem.mp hw
    have := hinv j hj (by omega)
    simp only [List.get_eq_getElem, he] at this
    exact this
  constructor
  · have hnil : l.filter (fun w => w.value = value) = [] := by
      rw [List.filter_eq_nil_iff]
      intro a ha
      simpa using hall a ha
    rw [hnil, List.append_nil]
  · have hself : l.filter (fun w => ¬ w.value = value) = l := by
      rw [List.filter_eq_self]
      intro a ha
      simpa using hall a ha
    rw [hself]

lemma tripWaiters_spec (value : Int) (k : Nat) :
    ∀ (l : List EmulatorWaiter) (i : Nat) (f : List EmulatorWaiter),
    l.length - i ≤ k →
    (∀ (j : Nat) (hj : j < l.length), j < i →
      (l.get ⟨j, hj⟩).value ≠ value) →
    (tripWaiters value l i f).2.Perm
      (f ++ l.filter (fun w => w.value = value)) ∧
    (tripWaiters value l i f).1.Perm
      (l.filter (fun w => ¬ w.value = value)) := by
  induction k with
  | zero =>
    intro l i f hk hinv
    exact tripWaiters_at_end value l i f (by omega) hinv
  | succ k ih =>
    intro l i f hk hinv
    by_cases h : i < l.length
    · by_cases hv : (l.get ⟨i, h⟩).value = value
      · rw [tripWaiters_match value l i f h hv]
        have hne : l ≠ [] := List.ne_nil_of_length_pos (by omega)
        have hlen := swapRemove_length l i hne
        have hinv2 : ∀ (j : Nat) (hj : j < (swapRemove l i).length), j < i →
            ((swapRemove l i).get ⟨j, hj⟩).value ≠ value := by
          intro j hj hji
          have hj1 : j < l.length - 1 := by omega
          rw [swapRemove_get l i j hne (by omega) hj1 hj (by omega)]
          exact hinv j (by omega) hji
        obtain ⟨h1, h2⟩ :=
          ih (swapRemove l i) i (f ++ [l.get ⟨i, h⟩]) (by omega) hinv2
        have hperm := perm_get_cons_eraseIdx l i h
        have hsw := swapRemove_perm l i h
        constructor
        · refine h1.trans ?_
          have hfe : (List.filter (fun w => w.value = value)
              (swapRemove l i)).Perm
              (List.filter (fun w => w.value = value) (l.eraseIdx i)) :=
            hsw.filter _
          have hfl : (List.filter (fun w => w.value = value) l).Perm
              (l.get ⟨i, h⟩ ::
                List.filter (fun w => w.value = value) (l.eraseIdx i)) := by
            have := hperm.filter (fun w => w.value = value)
            rwa [List.filter_cons_of_pos (by simpa using hv)] at this
          have step1 : ((f ++ [l.get ⟨i, h⟩]) ++
              List.filter (fun w => w.value = value) (swapRemove l i)).Perm
              (f ++ (l.get ⟨i, h⟩ ::
                List.filter (fun w => w.value = value) (l.eraseIdx i))) := by
            rw [List.append_assoc]
            exact List.Perm.append_left f (List.Perm.append_left _ hfe)
          exact step1.trans (List.Perm.append_left f hfl.symm)
        · refine h2.trans ?_
          have hfe : (List.filter (fun w => ¬ w.value = value)
              (swapRemove l i)).Perm
              (List.filter (fun w => ¬ w.value = value) (l.eraseIdx i)) :=
            hsw.filter _
          have hfl : (List.filter (fun w => ¬ w.value = value) l).Perm
              (List.filter (fun w => ¬ w.value = value) (l.eraseIdx i)) := by
            have := hperm.filter (fun w => ¬ w.value = value)
            rwa [List.filter_cons_of_neg (by simpa using hv)] at this
          exact hfe.trans hfl.symm
      · rw [tripWaiters_skip value l i f h hv]
        refine ih l (i + 1) f (by omega) ?_
        intro j hj hji
        rcases Nat.lt_or_ge j i with hji2 | hji2
        · exact hinv j hj hji2
        · have : j = i := by omega
          subst this
          intro hc
          exact hv (by rwa [show (⟨j, hj⟩ : Fin l.length) = ⟨j, h⟩ from rfl])
    · exact tripWaiters_at_end value l i f h hinv

/-- C1: `on_emu_state_changed value` first drains every registration
pending on the channel into the internal list (so the channel is empty
afterwards and the drained registrations take part in the scan), then
fires and removes exactly the waiters whose target equals `value`
(possibly reordering the rest): the fired waiters are a permutation of the
matching ones, the surviving list is a permutation of the non-matching
ones, and every waiter registered for a different value stays in the list
and is not fired. -/
theorem on_emu_state_changed_spec (m : EmulatorWaitManager) (value : Int) :
    (on_emu_state_changed m value).1.rx = [] ∧
    (on_emu_state_changed m value).2.Perm
      ((m.waiters ++ m.rx).filter (fun w => w.value = value)) ∧
    (on_emu_state_changed m value).1.waiters.Perm
      ((m.waiters ++ m.rx).filter (fun w => ¬ w.value = value)) ∧
    (∀ w ∈ m.waiters ++ m.rx, w.value ≠ value →
      w ∈ (on_emu_state_changed m value).1.waiters ∧
      w ∉ (on_emu_state_changed m value).2) := by
  have hs := tripWaiters_spec value (m.waiters ++ m.rx).length
    (m.waiters ++ m.rx) 0 [] (by omega) (by omega)
  have e2 : (on_emu_state_changed m value).2 =
      (tripWaiters value (m.waiters ++ m.rx) 0 []).2 := rfl
  have e1 : (on_emu_state_changed m value).1.waiters =
      (tripWaiters value (m.waiters ++ m.rx) 0 []).1 := rfl
  rw [List.nil_append] at hs
  refine ⟨rfl, ?_, ?_, ?_⟩
  · rw [e2]; exact hs.1
  · rw [e1]; exact hs.2
  · intro w hw hwv
    constructor
    · rw [e1]
      rw [hs.2.mem_iff, List.mem_filter]
      exact ⟨hw, by simpa using hwv⟩
    · rw [e2]
      intro hmem
      rw [hs.1.mem_iff, List.mem_filter] at hmem
      exact hwv (by simpa using hmem.2)

/-- Witness for C1: a pending registration for `Paused` (3) is untouched
by a notify with `Running` (2): nothing fires. -/
theorem on_emu_state_changed_spec_witness :
    (on_emu_state_changed ⟨[⟨3, 5⟩], []⟩ 2).2.Perm
      ((([] : List EmulatorWaiter) ++ [(⟨3, 5⟩ : EmulatorWaiter)]).filter
        (fun w => w.value = 2)) ∧
    (on_emu_state_changed ⟨[⟨3, 5⟩], []⟩ 2).1.waiters.Perm
      ((([] : List EmulatorWaiter) ++ [(⟨3, 5⟩ : EmulatorWaiter)]).filter
        (fun w => ¬ w.value = 2)) :=
  ⟨(on_emu_state_changed_spec ⟨[⟨3, 5⟩], []⟩ 2).2.1,
   (on_emu_state_changed_spec ⟨[⟨3, 5⟩], []⟩ 2).2.2.1⟩

/-! Helper lemmas shared by the theorems below. -/

lemma emu_state_command_trace_eq (st : CoreState) (command : Command)
    (value : EmuState) (hconn : st.emuSenderConnected = true) :
    (emu_state_command st command value).2.trace =
      st.trace ++ [.registerWaiter value.toInt, .issueCommand command] := by
  cases h : st.doCommandResult command <;>
    simp [emu_state_command, hconn, CoreState.do_command, emu_pair,
      EmulatorFuture.fail_early, h]

lemma emu_state_command_disconnected (st : CoreState) (command : Command)
    (value : EmuState) (hconn : st.emuSenderConnected = false) :
    (emu_state_command st command value).1 =
      .panicked "emu waiter queue disconnected" := by
  simp [emu_state_command, hconn, emu_pair]

/-- C2: if issuing the command fails, the future returned by
`emu_state_command` resolves on its first poll to exactly that error,
whatever the state of the underlying oneshot receiver — even if the
receiver has already been fired, the pre-set failure is returned. -/
theorem emu_state_command_early_failure
    (st : CoreState) (command : Command) (value : EmuState) (e : M64PError)
    (rxState : OneshotState)
    (hconn : st.emuSenderConnected = true)
    (hfail : st.doCommandResult command = .error e) :
    ∃ fut, (emu_state_command st command value).1 = .ok fut ∧
      (fut.poll rxState).1 = .ready (.error e) := by
  refine ⟨{ early_fail := some e, rx := st.nextTxId }, ?_, rfl⟩
  simp [emu_state_command, hconn, CoreState.do_command, hfail, emu_pair,
    EmulatorFuture.fail_early]

/-- Witness for C2 at a concrete core whose engine rejects every command,
polled with the receiver already fired. -/
theorem emu_state_command_early_failure_witness :
    ∃ fut,
      (emu_state_command ⟨true, [], 0, fun _ => .error .engineBusy, []⟩
        .pause .paused).1 = .ok fut ∧
      (fut.poll .fired).1 = .ready (.error .engineBusy) :=
  emu_state_command_early_failure _ _ _ _ _ rfl rfl

/-- C5: every call to `emu_state_command` (and hence `stop`, `pause`,
`resume`, `advance_frame` and `await_emu_state`) sends the waiter into the
multiplexer's registration channel strictly before issuing the command to
the execution engine: the trace is always register-then-issue, never
issue-then-register. -/
theorem emu_state_command_register_before_issue
    (st : CoreState) (command : Command) (value : EmuState)
    (hconn : st.emuSenderConnected = true) :
    (emu_state_command st command value).2.trace =
      st.trace ++ [.registerWaiter value.toInt, .issueCommand command] ∧
    (st.stop).2.trace =
      st.trace ++ [.registerWaiter EmuState.stopped.toInt, .issueCommand .stop] ∧
    (st.pause).2.trace =
      st.trace ++ [.registerWaiter EmuState.paused.toInt, .issueCommand .pause] ∧
    (st.resume).2.trace =
      st.trace ++ [.registerWaiter EmuState.running.toInt, .issueCommand .resume] ∧
    (st.advance_frame).2.trace =
      st.trace ++
        [.registerWaiter EmuState.paused.toInt, .issueCommand .advanceFrame] ∧
    (st.await_emu_state value).2.trace =
      st.trace ++ [.registerWaiter value.toInt, .issueCommand .nop] :=
  ⟨emu_state_command_trace_eq st command value hconn,
   emu_state_command_trace_eq st .stop .stopped hconn,
   emu_state_command_trace_eq st .pause .paused hconn,
   emu_state_command_trace_eq st .resume .running hconn,
   emu_state_command_trace_eq st .advanceFrame .paused hconn,
   emu_state_command_trace_eq st .nop value hconn⟩

/-- Witness for C5 at a concrete connected core. -/
theorem emu_state_command_register_before_issue_witness :
    (emu_state_command ⟨true, [], 0, fun _ => .ok (), []⟩ .stop .stopped).2.trace
      = [] ++ [.registerWaiter EmuState.stopped.toInt, .issueCommand .stop] :=
  (emu_state_command_register_before_issue
    ⟨true, [], 0, fun _ => .ok (), []⟩ .stop .stopped rfl).1

/-- C7: for a future whose early-failure slot is unset, a dropped sender
resolves the poll with the benign success `Ok(())`, observably identical
to a matched state change (a fired sender). -/
theorem poll_dropped_benign (fut : EmulatorFuture)
    (h : fut.early_fail = none) :
    fut.poll .dropped = (.ready (.ok ()), fut) ∧
    fut.poll .dropped = fut.poll .fired := by
  obtain ⟨ef, rx⟩ := fut
  cases h
  exact ⟨rfl, rfl⟩

/-- Witness for C7 at a concrete future with no early failure. -/
theorem poll_dropped_benign_witness :
    EmulatorFuture.poll ⟨none, 0⟩ .dropped = (.ready (.ok ()), ⟨none, 0⟩) ∧
    EmulatorFuture.poll ⟨none, 0⟩ .dropped = EmulatorFuture.poll ⟨none, 0⟩ .fired :=
  poll_dropped_benign ⟨none, 0⟩ rfl

/-- C10: if the multiplexer's registration channel is disconnected, every
call to `emu_state_command` — and therefore `stop`, `pause`, `resume`,
`advance_frame` and `await_emu_state` — panics with
"emu waiter queue disconnected" instead of returning an error result. -/
theorem emu_state_command_disconnected_panics
    (st : CoreState) (command : Command) (value : EmuState)
    (hconn : st.emuSenderConnected = false) :
    (emu_state_command st command value).1 =
      .panicked "emu waiter queue disconnected" ∧
    (st.stop).1 = .panicked "emu waiter queue disconnected" ∧
    (st.pause).1 = .panicked "emu waiter queue disconnected" ∧
    (st.resume).1 = .panicked "emu waiter queue disconnected" ∧
    (st.advance_frame).1 = .panicked "emu waiter queue disconnected" ∧
    (st.await_emu_state value).1 = .panicked "emu waiter queue disconnected" :=
  ⟨emu_state_command_disconnected st command value hconn,
   emu_state_command_disconnected st .stop .stopped hconn,
   emu_state_command_disconnected st .pause .paused hconn,
   emu_state_command_disconnected st .resume .running hconn,
   emu_state_command_disconnected st .advanceFrame .paused hconn,
   emu_state_command_disconnected st .nop value hconn⟩

/-- Witness for C10 at a concrete core whose registration channel is
disconnected. -/
theorem emu_state_command_disconnected_panics_witness :
    (emu_state_command ⟨false, [], 0, fun _ => .ok (), []⟩ .pause .paused).1 =
      .panicked "emu waiter queue disconnected" :=
  (emu_state_command_disconnected_panics
    ⟨false, [], 0, fun _ => .ok (), []⟩ .pause .paused rfl).1

lemma runRequests_spec (rm : RequestManager) (oracle : Nat → VidextResponse)
    (reqs : List VidextRequest) :
    (runRequests rm oracle reqs).map Prod.fst =
      List.range' rm.uid_counter reqs.length ∧
    ∀ p ∈ runRequests rm oracle reqs, p.2 = .ok (oracle p.1) := by
  induction reqs generalizing rm with
  | nil => simp [runRequests]
  | cons req rest ih =>
    have h := ih { uid_counter := rm.uid_counter + 1 }
    simp only [runRequests, RequestManager.request, if_true, if_pos rfl,
      List.map_cons, List.length_cons, List.range'_succ, List.mem_cons]
    constructor
    · exact congrArg (rm.uid_counter :: ·) h.1
    · rintro p (rfl | hp)
      · rfl
      · exact h.2 p hp

/-- C3: for an outstanding request with identifier `id` (the counter value
at call time), a first reply envelope carrying a different identifier
triggers the fatal assertion panic and is never returned as a normal
result; the reply payload is returned normally exactly when the echoed
identifier equals `id`. -/
theorem request_reply_id_validation
    (rm : RequestManager) (req : VidextRequest) (reply_id : Nat)
    (resp : VidextResponse) :
    (reply_id ≠ rm.uid_counter →
      (rm.request true (some (reply_id, resp)) req).1 =
        .panicked "reply should correspond to request" ∧
      ∀ r, (rm.request true (some (reply_id, resp)) req).1 ≠ .ok r) ∧
    (reply_id = rm.uid_counter →
      (rm.request true (some (reply_id, resp)) req).1 = .ok resp) := by
  constructor
  · intro h
    simp [RequestManager.request, h]
  · intro h
    simp [RequestManager.request, h]

/-- Witness for C3 at concrete inputs: counter 5, mismatched reply id 3
panics; matching reply id 5 returns the payload. -/
theorem request_reply_id_validation_witness :
    (RequestManager.request ⟨5⟩ true (some (3, 7)) 0).1 =
      .panicked "reply should correspond to request" ∧
    (RequestManager.request ⟨5⟩ true (some (5, 7)) 0).1 = .ok 7 :=
  ⟨((request_reply_id_validation ⟨5⟩ 0 3 7).1 (by decide)).1,
   (request_reply_id_validation ⟨5⟩ 0 5 7).2 rfl⟩

/-- C4: N sequential calls on one `RequestManager`, each answered with a
correctly-echoed identifier, are assigned the identifiers 0, 1, …, N−1 in
order (strictly increasing, starting at 0, stepping by one), and each call
returns the reply payload correlated with its own identifier. -/
theorem request_ids_sequential (oracle : Nat → VidextResponse)
    (reqs : List VidextRequest) :
    (runRequests RequestManager.new oracle reqs).map Prod.fst =
      List.range reqs.length ∧
    ∀ p ∈ runRequests RequestManager.new oracle reqs,
      p.2 = .ok (oracle p.1) := by
  have h := runRequests_spec RequestManager.new oracle reqs
  rw [List.range_eq_range']
  exact h

/-- Witness for C4 on three concrete sequential requests. -/
theorem request_ids_sequential_witness :
    (runRequests RequestManager.new (fun n => n * 10) [4, 5, 6]).map Prod.fst
      = List.range 3 :=
  (request_ids_sequential (fun n => n * 10) [4, 5, 6]).1

/-- Counterexample to C6 as stated: with the remote handler's inbound
channel (the rendezvous's outbound side) closed, `request` panics at the
`.expect` on the outbound send — it does not return the `RecvError`
disconnection result. -/
theorem request_outbound_closed_counterexample :
    (RequestManager.request ⟨0⟩ false none 0).1 =
      .panicked "Sender should still be valid" ∧
    (RequestManager.request ⟨0⟩ false none 0).1 ≠ .recvDisconnected := by
  decide

/-- C6 (amended): a disconnection error is returned when the rendezvous's
reply (inbound) channel is closed — `inbound.recv()` fails and `request`
returns `Err(RecvError)` for every request payload; when the outbound send
side is closed instead, the call panics rather than returning an error. -/
theorem request_disconnection_amended
    (rm : RequestManager) (req : VidextRequest)
    (reply : Option (Nat × VidextResponse)) :
    (rm.request true none req).1 = .recvDisconnected ∧
    (rm.request false reply req).1 =
      .panicked "Sender should still be valid" := by
  constructor <;> simp [RequestManager.request]

/-- Witness for C6 (amended) at concrete inputs. -/
theorem request_disconnection_amended_witness :
    (RequestManager.request ⟨2⟩ true none 9).1 = .recvDisconnected ∧
    (RequestManager.request ⟨2⟩ false none 9).1 =
      .panicked "Sender should still be valid" :=
  request_disconnection_amended ⟨2⟩ 9 none

/-- C8: `stop_rom_inner` performs, in order, (a) issue-stop-and-await,
(b) thread join, (c) reclamation of the shared handle; and reclamation
panics whenever an owner other than the coordinator's own reference still
exists (`strongCount ≥ 2`), succeeding exactly when the coordinator holds
the sole remaining reference. -/
theorem stop_rom_inner_order_and_reclaim (strongCount : Nat) :
    (stop_rom_inner (.ok ()) true strongCount).2 =
      [.issueStop, .joinThread, .reclaim] ∧
    (2 ≤ strongCount →
      (stop_rom_inner (.ok ()) true strongCount).1 =
        .panicked "no refs to the core should exist outside of the emulator thread") ∧
    (strongCount = 1 →
      (stop_rom_inner (.ok ()) true strongCount).1 = .ok) := by
  refine ⟨?_, ?_, ?_⟩
  · by_cases h : strongCount = 1 <;> simp [stop_rom_inner, arcIntoInner, h]
  · intro h2
    have h : strongCount ≠ 1 := by omega
    simp [stop_rom_inner, arcIntoInner, h]
  · intro h
    simp [stop_rom_inner, arcIntoInner, h]

/-- Witness for C8: with two owners reclamation panics; with one it
succeeds, after the full ordered step sequence. -/
theorem stop_rom_inner_order_and_reclaim_witness :
    (stop_rom_inner (.ok ()) true 2).2 =
      [.issueStop, .joinThread, .reclaim] ∧
    (stop_rom_inner (.ok ()) true 2).1 =
      .panicked "no refs to the core should exist outside of the emulator thread" ∧
    (stop_rom_inner (.ok ()) true 1).1 = .ok :=
  ⟨(stop_rom_inner_order_and_reclaim 2).1,
   (stop_rom_inner_order_and_reclaim 2).2.1 (by decide),
   (stop_rom_inner_order_and_reclaim 1).2.2 rfl⟩

lemma lor_shift_mod (w h : Nat) (hh : h < 2 ^ 16) :
    ((w <<< 16) ||| h) % 2 ^ 16 = h := by
  apply Nat.eq_of_testBit_eq
  intro i
  rw [Nat.testBit_mod_two_pow, Nat.testBit_lor, Nat.testBit_shiftLeft]
  by_cases hi : i < 16
  · have h1 : ¬ (i ≥ 16) := by omega
    simp [hi, h1]
  · have h1 : h.testBit i = false :=
      Nat.testBit_eq_false_of_lt
        (lt_of_lt_of_le hh (Nat.pow_le_pow_right (by norm_num) (by omega)))
    simp [hi, h1]

lemma lor_shift_shiftRight (w h : Nat) (hh : h < 2 ^ 16) :
    ((w <<< 16) ||| h) >>> 16 = w := by
  apply Nat.eq_of_testBit_eq
  intro i
  rw [Nat.testBit_shiftRight, Nat.testBit_lor, Nat.testBit_shiftLeft]
  have h1 : h.testBit (16 + i) = false :=
    Nat.testBit_eq_false_of_lt
      (lt_of_lt_of_le hh (Nat.pow_le_pow_right (by norm_num) (by omega)))
  have h2 : 16 + i - 16 = i := by omega
  have h3 : 16 + i ≥ 16 := by omega
  simp [h1, h2, h3]

lemma size_packed_no_trunc (w h : Nat) (hw : w < 2 ^ 16) (hh : h < 2 ^ 16) :
    size_packed w h = (w <<< 16) ||| h := by
  have hlt : (w <<< 16) ||| h < 2 ^ 32 := by
    have := Nat.append_lt hh hw
    norm_num at this
    exact this
  exact Nat.mod_eq_of_lt hlt

lemma size_packed_eq_add (w h : Nat) (hw : w < 2 ^ 16) (hh : h < 2 ^ 16) :
    size_packed w h = w * 2 ^ 16 + h := by
  rw [size_packed_no_trunc w h hw hh]
  have hd := lor_shift_shiftRight w h hh
  have hm := lor_shift_mod w h hh
  have hdm := Nat.div_add_mod ((w <<< 16) ||| h) (2 ^ 16)
  rw [Nat.shiftRight_eq_div_pow] at hd
  have e : (2 : Nat) ^ 16 = 65536 := by norm_num
  rw [e] at hd hm hdm ⊢
  omega

/-- C9: for 16-bit `width` and `height`, `notify_resize` issues to the
engine the single 32-bit value `((width as u32) << 16) | (height as u32)`;
the width occupies the upper 16 bits and the height the lower 16 bits with
no loss or overlap (both are recovered exactly by shift and mask). -/
theorem notify_resize_packs (st : CoreState) (width height : Nat)
    (hw : width < 2 ^ 16) (hh : height < 2 ^ 16) :
    (notify_resize st width height).2.trace =
      st.trace ++ [.issueCommand (.coreStateSet videoSizeParam
        (size_packed width height))] ∧
    size_packed width height = width * 2 ^ 16 + height ∧
    size_packed width height / 2 ^ 16 = width ∧
    size_packed width height % 2 ^ 16 = height := by
  have hadd := size_packed_eq_add width height hw hh
  have e : (2 : Nat) ^ 16 = 65536 := by norm_num
  refine ⟨rfl, hadd, ?_, ?_⟩
  · rw [hadd, e]
    rw [e] at hh
    omega
  · rw [hadd, e]
    rw [e] at hh
    omega

/-- Witness for C9 at width 0xABCD and height 0x1234 on a concrete core. -/
theorem notify_resize_packs_witness :
    (notify_resize ⟨true, [], 0, fun _ => .ok (), []⟩ 43981 4660).2.trace =
      [] ++ [.issueCommand (.coreStateSet videoSizeParam
        (size_packed 43981 4660))] ∧
    size_packed 43981 4660 = 43981 * 2 ^ 16 + 4660 ∧
    size_packed 43981 4660 / 2 ^ 16 = 43981 ∧
    size_packed 43981 4660 % 2 ^ 16 = 4660 :=
  notify_resize_packs ⟨true, [], 0, fun _ => .ok (), []⟩ 43981 4660
    (by decide) (by decide)

end M64prs

